import Mathlib

/-!
Shallow embedding of the Momentum analytics pipeline from
`src/momentum_timer.py`, together with theorems checking the
specification's claims about it.

The script has two variants.  Variant 2 (lines 127-262) contains the
analytics core:

* `calculate_momentum(df, lookback) = (df / df.shift(lookback) - 1).dropna()`
  (lines 173-174);
* `latest_momentum = momentum.iloc[-1].sort_values(ascending=False)`
  (line 177);
* `top_etfs = latest_momentum.head(display_count).index` (line 194);
* `backtest_data = data[top_etfs].pct_change().dropna()` and
  `cum_returns = (1 + backtest_data).cumprod()` (lines 195-196).

Variant 1 (lines 12-124) computes
`historical_data.pct_change(days_in_period).iloc[-1].sort_values(ascending=False)`
behind the guard `len(historical_data) >= days_in_period` (lines 90-92).

Prices are modelled as rationals; a pandas NaN cell is modelled as
`Option.none`, and the Python exceptions raised by the pipeline are
modelled by the `EngineError` type.
-/

namespace Momentum

/-- An instrument identifier (a ticker symbol such as "SPY"). -/
abbrev Instrument := String

/-- A price panel: the `Adj Close` frame after `dropna()`.  Columns are
listed in their first-seen (panel) order; each column is an instrument
paired with its price series, one entry per timestamp, oldest first.
The frame is rectangular: theorems carry the hypothesis that every
column has the same length. -/
structure PricePanel where
  cols : List (Instrument × List ℚ)

/-- One row of the ranked momentum table: an instrument and its score. -/
structure MomentumRecord where
  instrument : Instrument
  score : ℚ
  deriving DecidableEq, Repr

/-- The failures observable from the embedded pipeline.
`indexError` models the Python `IndexError` raised by `iloc[-1]` on an
empty frame; `keyError` models the pandas `KeyError` raised by column
projection `data[instruments]`, carrying the missing labels;
`insufficientData` models the specification's `InsufficientDataError`
(required vs. available timestamp counts) — no code path in
`src/momentum_timer.py` produces it, it exists only so that
specification-level statements about it can be expressed. -/
inductive EngineError where
  | indexError : EngineError
  | keyError (missing : List Instrument) : EngineError
  | insufficientData (required available : ℕ) : EngineError
  deriving DecidableEq, Repr

/-- One column of `(df / df.shift(lookback) - 1).dropna()`
(`calculate_momentum`, line 174).  `shift(lookback)` leaves rows
`0 .. lookback-1` undefined and `dropna()` removes exactly those rows
(for a rectangular NaN-free panel every column is undefined on the same
rows), so the windowed series pairs `price[t]` with `price[t-lookback]`
for `t ≥ lookback`. -/
def momSeries (lookback : ℕ) (prices : List ℚ) : List ℚ :=
  List.zipWith (fun pt p0 => pt / p0 - 1) (prices.drop lookback) prices

/-- `momentum.iloc[-1]` (line 177) turned into the list of
`(instrument, score)` records in panel-column order: the last row of the
windowed momentum frame.  When the frame has no rows — for a rectangular
panel every column's windowed series is empty simultaneously —
`iloc[-1]` raises `IndexError`, modelled by `.error .indexError`. -/
def lastRowRecords (lookback : ℕ) :
    List (Instrument × List ℚ) → Except EngineError (List MomentumRecord)
  | [] => .ok []
  | c :: cs =>
    match (momSeries lookback c.2).getLast? with
    | some s => (lastRowRecords lookback cs).map (fun rs => ⟨c.1, s⟩ :: rs)
    | none => .error .indexError

/-- pandas `sort_values(ascending=False)` (line 177): pandas `nargsort`
reverses the values, computes an ascending argsort of the reversed
array with the numpy kernel, and reverses the resulting indexer again.
The kernel argsort is modelled here by an insertion sort, which is what
numpy's default quicksort kind runs only on arrays of fewer than 16
elements; on larger arrays (such as the script's 20-ETF panel) the
default kind is an unstable introsort whose tie order is unspecified,
so the model is exact on the order of tied records only below that
cutoff.  Theorems therefore draw only tie-order-invariant conclusions
from this definition: which records occur, how many, and that the
scores are non-increasing — all of which hold for any correct
descending comparison sort regardless of kernel. -/
def sortDescByScore (l : List MomentumRecord) : List MomentumRecord :=
  (l.reverse.insertionSort (fun a b => a.score ≤ b.score)).reverse

/-- The momentum ranking pipeline of variant 2 (lines 173-177):
`calculate_momentum(data, lookback)`, then `iloc[-1]`, then
`sort_values(ascending=False)`. -/
def computeMomentum (p : PricePanel) (lookback : ℕ) :
    Except EngineError (List MomentumRecord) :=
  (lastRowRecords lookback p.cols).map sortDescByScore

/-- `latest_momentum.head(display_count)` (line 194): the first `n`
records of the ranked table; pandas `head` clamps silently when `n`
exceeds the length. -/
def selectTopN (t : List MomentumRecord) (n : ℕ) : List MomentumRecord :=
  t.take n

/-- pandas column projection `data[instruments]` (line 195): the
requested columns in requested order, or a `KeyError` naming every
requested label that is not a panel column. -/
def project (p : PricePanel) (instruments : List Instrument) :
    Except EngineError (List (Instrument × List ℚ)) :=
  let missing := instruments.filter fun i => !(p.cols.any fun c => c.1 == i)
  if missing.isEmpty then
    .ok (instruments.filterMap fun i =>
      (p.cols.find? fun c => c.1 == i).map fun c => (i, c.2))
  else
    .error (.keyError missing)

/-- One column of `data[top_etfs].pct_change().dropna()` (line 195):
daily fractional changes `price[t]/price[t-1] - 1` for `t ≥ 1`; row 0 is
NaN and is dropped. -/
def dailyChanges (prices : List ℚ) : List ℚ :=
  List.zipWith (fun pt p0 => pt / p0 - 1) (prices.drop 1) prices

/-- One column of `(1 + backtest_data).cumprod()` (line 196): running
products of `(1 + change)`.  Note that `cumprod` emits one value per
change row: no 1.0 seed row appears in the output. -/
def cumReturns (changes : List ℚ) : List ℚ :=
  (changes.scanl (fun acc c => acc * (1 + c)) 1).drop 1

/-- The backtest pipeline of variant 2 (lines 195-196): project the
panel onto the requested instruments, then per instrument compute
cumulative growth factors of the daily changes. -/
def computeBacktest (p : PricePanel) (instruments : List Instrument) :
    Except EngineError (List (Instrument × List ℚ)) :=
  (project p instruments).map fun cols =>
    cols.map fun c => (c.1, cumReturns (dailyChanges c.2))

/-- Row count of the panel (`len(historical_data)`); for a rectangular
panel every column has this length. -/
def PricePanel.numRows (p : PricePanel) : ℕ :=
  (p.cols.head?.map fun c => c.2.length).getD 0

/-- The last row of `historical_data.pct_change(days)` for one column
(variant 1, line 92 — note: no `dropna()` here).  `pct_change(days)`
defines row `t` only for `t ≥ days`, so the last row holds
`price[n-1]/price[n-1-days] - 1` when `n > days` and NaN (`none`)
otherwise. -/
def lastPctChange (days : ℕ) (prices : List ℚ) : Option ℚ :=
  if days + 1 ≤ prices.length then
    (prices[prices.length - 1]?).bind fun pt =>
      (prices[prices.length - 1 - days]?).map fun p0 => pt / p0 - 1
  else none

/-- Variant 1's display path (lines 90-92): behind the sufficiency guard
`len(historical_data) >= days_in_period`, the last row of
`pct_change(days_in_period)` per instrument.  The outer `none` models
the guard failing (the script shows a warning and computes nothing); an
inner `none` is a NaN score in the displayed table.
`sort_values(ascending=False)` only permutes the (instrument, score)
pairs, so the table is modelled in panel-column order. -/
def momentumDisplayV1 (p : PricePanel) (days : ℕ) :
    Option (List (Instrument × Option ℚ)) :=
  if days ≤ p.numRows then
    some (p.cols.map fun c => (c.1, lastPctChange days c.2))
  else none


/-- A ten-record table used to exercise `selectTopN`. -/
def tenRecordTable : List MomentumRecord :=
  (List.range 10).map fun j => ⟨"E", (j : ℚ)⟩

/-! ### Helper lemmas -/

lemma momSeries_length (k : ℕ) (prices : List ℚ) :
    (momSeries k prices).length = prices.length - k := by
  unfold momSeries
  rw [List.length_zipWith, List.length_drop]
  omega

lemma momSeries_getLast (k n : ℕ) (prices : List ℚ) (hlen : prices.length = n)
    (hk : k + 1 ≤ n) (pt p0 : ℚ) (hpt : prices[n - 1]? = some pt)
    (hp0 : prices[n - 1 - k]? = some p0) :
    (momSeries k prices).getLast? = some (pt / p0 - 1) := by
  have hlen' : (momSeries k prices).length = n - k := by rw [momSeries_length, hlen]
  rw [List.getLast?_eq_getElem?, hlen', momSeries,
    List.getElem?_zipWith_eq_some]
  refine ⟨pt, p0, ?_, ?_, rfl⟩
  · rw [List.getElem?_drop]
    have h1 : k + (n - k - 1) = n - 1 := by omega
    rw [h1]; exact hpt
  · have h2 : n - k - 1 = n - 1 - k := by omega
    rw [h2]; exact hp0

lemma lastRowRecords_ok (k : ℕ) (cols : List (Instrument × List ℚ))
    (h : ∀ c ∈ cols, ((momSeries k c.2).getLast?).isSome) :
    ∃ rs, lastRowRecords k cols = .ok rs ∧
      rs.map (·.instrument) = cols.map (·.1) ∧
      (∀ c ∈ cols, ∀ s, (momSeries k c.2).getLast? = some s →
        (⟨c.1, s⟩ : MomentumRecord) ∈ rs) ∧
      (∀ r ∈ rs, ∃ c ∈ cols, r.instrument = c.1 ∧
        (momSeries k c.2).getLast? = some r.score) := by
  induction cols with
  | nil => exact ⟨[], rfl, rfl, by simp, by simp⟩
  | cons c cs ih =>
    have hc : ((momSeries k c.2).getLast?).isSome := h c (by simp)
    obtain ⟨s, hs⟩ := Option.isSome_iff_exists.mp hc
    obtain ⟨rs, hrs, hmap, hfwd, hbwd⟩ := ih (fun c' hc' => h c' (by simp [hc']))
    refine ⟨⟨c.1, s⟩ :: rs, ?_, ?_, ?_, ?_⟩
    · simp [lastRowRecords, hs, hrs, Except.map]
    · simp [hmap]
    · intro c' hc' s' hs'
      rcases List.mem_cons.mp hc' with rfl | hmem
      · rw [hs] at hs'
        obtain rfl := Option.some_inj.mp hs'
        exact List.mem_cons_self _ _
      · exact List.mem_cons_of_mem _ (hfwd c' hmem s' hs')
    · intro r hr
      rcases List.mem_cons.mp hr with rfl | hmem
      · exact ⟨c, by simp, rfl, hs⟩
      · obtain ⟨c', hc', h1, h2⟩ := hbwd r hmem
        exact ⟨c', by simp [hc'], h1, h2⟩

lemma lastRowRecords_error_head (k : ℕ) (c : Instrument × List ℚ)
    (cs : List (Instrument × List ℚ)) (h : (momSeries k c.2).getLast? = none) :
    lastRowRecords k (c :: cs) = .error .indexError := by
  simp [lastRowRecords, h]

instance : IsTotal MomentumRecord (fun a b => a.score ≤ b.score) :=
  ⟨fun a b => le_total a.score b.score⟩

instance : IsTrans MomentumRecord (fun a b => a.score ≤ b.score) :=
  ⟨fun _ _ _ h1 h2 => le_trans h1 h2⟩

lemma sortDescByScore_perm (l : List MomentumRecord) :
    List.Perm (sortDescByScore l) l :=
  ((List.reverse_perm _).trans (List.perm_insertionSort _ _)).trans
    (List.reverse_perm _)

lemma sortDescByScore_length (l : List MomentumRecord) :
    (sortDescByScore l).length = l.length :=
  (sortDescByScore_perm l).length_eq

lemma sortDescByScore_sorted (l : List MomentumRecord) :
    List.Pairwise (fun a b => b.score ≤ a.score) (sortDescByScore l) := by
  have h := List.sorted_insertionSort
    (fun a b : MomentumRecord => a.score ≤ b.score) l.reverse
  rw [sortDescByScore]
  exact (List.pairwise_reverse).mpr h

lemma scanl_getElem_zero (f : ℚ → ℚ → ℚ) (b : ℚ) (cs : List ℚ) :
    (List.scanl f b cs)[0]? = some b := by
  cases cs <;> simp [List.scanl_cons, List.scanl_nil]

lemma scanl_mul_getElem (a : ℚ) (cs : List ℚ) (i : ℕ) (h : i < cs.length) :
    (List.scanl (fun acc c => acc * (1 + c)) a cs)[i + 1]? =
      some (a * ((cs.take (i + 1)).map fun c => 1 + c).prod) := by
  induction cs generalizing a i with
  | nil => simp at h
  | cons c cs ih =>
    rw [List.scanl_cons, List.singleton_append]
    cases i with
    | zero =>
      rw [List.getElem?_cons_succ, scanl_getElem_zero]
      simp
    | succ i =>
      have hi : i < cs.length := by simpa using h
      rw [List.getElem?_cons_succ, ih (a * (1 + c)) i hi]
      rw [List.take_succ_cons, List.map_cons, List.prod_cons, mul_assoc]

lemma cumReturns_length (changes : List ℚ) :
    (cumReturns changes).length = changes.length := by
  simp [cumReturns, List.length_scanl]

lemma cumReturns_getElem (changes : List ℚ) (i : ℕ) (h : i < changes.length) :
    (cumReturns changes)[i]? =
      some (((changes.take (i + 1)).map fun c => 1 + c).prod) := by
  rw [cumReturns, List.getElem?_drop, Nat.add_comm 1 i, scanl_mul_getElem _ _ _ h,
    one_mul]

lemma proj_filterMap_spec (p : PricePanel) (l : List Instrument)
    (h : ∀ i ∈ l, ∃ c ∈ p.cols, c.1 = i) :
    ((l.filterMap fun i =>
        (p.cols.find? fun c => c.1 == i).map fun c => (i, c.2)).map (·.1) = l) ∧
      ∀ ci ∈ (l.filterMap fun i =>
        (p.cols.find? fun c => c.1 == i).map fun c => (i, c.2)),
        ∃ c ∈ p.cols, c.1 = ci.1 ∧ c.2 = ci.2 := by
  induction l with
  | nil => simp
  | cons i l ih =>
    obtain ⟨c, hc, hci⟩ := h i (by simp)
    have hsome : ((p.cols.find? fun c => c.1 == i)).isSome :=
      List.find?_isSome.mpr ⟨c, hc, by simp [hci]⟩
    obtain ⟨c', hc'⟩ := Option.isSome_iff_exists.mp hsome
    have hc'mem : c' ∈ p.cols := List.mem_of_find?_eq_some hc'
    have hc'eq : c'.1 = i := by simpa using List.find?_some hc'
    obtain ⟨ih1, ih2⟩ := ih (fun j hj => h j (by simp [hj]))
    rw [List.filterMap_cons]
    simp only [hc', Option.map_some']
    constructor
    · simp [ih1]
    · intro ci hci'
      rcases List.mem_cons.mp hci' with rfl | hmem
      · exact ⟨c', hc'mem, hc'eq, rfl⟩
      · exact ih2 ci hmem

lemma project_ok (p : PricePanel) (instruments : List Instrument)
    (h : ∀ i ∈ instruments, ∃ c ∈ p.cols, c.1 = i) :
    project p instruments = .ok (instruments.filterMap fun i =>
      (p.cols.find? fun c => c.1 == i).map fun c => (i, c.2)) := by
  have hmiss : (instruments.filter fun i => !(p.cols.any fun c => c.1 == i)) = [] := by
    rw [List.filter_eq_nil_iff]
    intro i hi
    obtain ⟨c, hc, hci⟩ := h i hi
    have hany : (p.cols.any fun c => c.1 == i) = true :=
      List.any_eq_true.mpr ⟨c, hc, by simp [hci]⟩
    simp [hany]
  simp only [project, hmiss, List.isEmpty_nil, if_true]

lemma project_error (p : PricePanel) (instruments : List Instrument)
    (hne : (instruments.filter fun i => !(p.cols.any fun c => c.1 == i)) ≠ []) :
    project p instruments =
      .error (.keyError (instruments.filter fun i =>
        !(p.cols.any fun c => c.1 == i))) := by
  have hfalse : (instruments.filter fun i =>
      !(p.cols.any fun c => c.1 == i)).isEmpty = false := by
    simpa [List.isEmpty_iff] using hne
  simp only [project, hfalse, Bool.false_eq_true, if_false]

lemma momSeries_isSome (p : PricePanel) (lookback n : ℕ)
    (hrect : ∀ c ∈ p.cols, c.2.length = n) (hn : lookback + 1 ≤ n) :
    ∀ c ∈ p.cols, ((momSeries lookback c.2).getLast?).isSome := by
  intro c hc
  rw [List.getLast?_isSome]
  intro hnil
  have hlen : (momSeries lookback c.2).length = n - lookback := by
    rw [momSeries_length, hrect c hc]
  rw [hnil] at hlen
  simp at hlen
  omega

lemma getElem_exists_of_lt {l : List ℚ} {i : ℕ} (h : i < l.length) :
    ∃ x, l[i]? = some x :=
  ⟨_, List.getElem?_eq_getElem h⟩

/-- C1: for every instrument in a rectangular panel with at least
`lookback + 1` aligned timestamps, `computeMomentum` succeeds and assigns
the instrument the score
(price at the latest timestamp / price `lookback` periods earlier) − 1. -/
theorem computeMomentum_score_spec (p : PricePanel) (lookback n : ℕ)
    (hrect : ∀ c ∈ p.cols, c.2.length = n) (_hlb : 0 < lookback)
    (hn : lookback + 1 ≤ n) :
    ∃ t, computeMomentum p lookback = .ok t ∧
      ∀ c ∈ p.cols, ∀ pt p0 : ℚ, c.2[n - 1]? = some pt →
        c.2[n - 1 - lookback]? = some p0 →
        (⟨c.1, pt / p0 - 1⟩ : MomentumRecord) ∈ t := by
  obtain ⟨rs, hrs, hmap, hfwd, _⟩ :=
    lastRowRecords_ok lookback p.cols (momSeries_isSome p lookback n hrect hn)
  refine ⟨sortDescByScore rs, by rw [computeMomentum, hrs]; rfl, ?_⟩
  intro c hc pt p0 hpt hp0
  have hlast := momSeries_getLast lookback n c.2 (hrect c hc) hn pt p0 hpt hp0
  exact ((sortDescByScore_perm rs).mem_iff).mpr (hfwd c hc _ hlast)

/-- C1 witness: the scenario panel {A: [100,110,121], B: [100,100,100]}
with lookback 2; A's score is 21/100 = 0.21 and B's score is 0, ranked
[A, B]. -/
theorem computeMomentum_score_spec_witness :
    (∀ c ∈ (PricePanel.mk [("A", [100, 110, 121]), ("B", [100, 100, 100])]).cols,
      c.2.length = 3) ∧ 0 < 2 ∧ 2 + 1 ≤ 3 ∧
    (∃ t, computeMomentum ⟨[("A", [100, 110, 121]), ("B", [100, 100, 100])]⟩ 2 = .ok t ∧
      ∀ c ∈ (PricePanel.mk [("A", [100, 110, 121]), ("B", [100, 100, 100])]).cols,
        ∀ pt p0 : ℚ, c.2[3 - 1]? = some pt → c.2[3 - 1 - 2]? = some p0 →
          (⟨c.1, pt / p0 - 1⟩ : MomentumRecord) ∈ t) ∧
    computeMomentum ⟨[("A", [100, 110, 121]), ("B", [100, 100, 100])]⟩ 2 =
      .ok [⟨"A", 21/100⟩, ⟨"B", 0⟩] :=
  ⟨by intro c hc; simp at hc; rcases hc with rfl | rfl <;> rfl, by norm_num, by norm_num,
    computeMomentum_score_spec _ 2 3
      (by intro c hc; simp at hc; rcases hc with rfl | rfl <;> rfl)
      (by norm_num) (by norm_num),
    by norm_num [computeMomentum, lastRowRecords, momSeries, sortDescByScore,
      List.insertionSort, List.orderedInsert, Except.map, List.getLast?]⟩

/-- C3 counterexample: a one-instrument panel with 3 timestamps and
lookback 5.  `calculate_momentum` windows away every row, so
`momentum.iloc[-1]` raises `IndexError` — an index-out-of-range
condition, not an `InsufficientDataError` reporting (need 6, have 3). -/
theorem computeMomentum_insufficient_cex :
    computeMomentum ⟨[("A", [1, 2, 3])]⟩ 5 = .error .indexError ∧
    computeMomentum ⟨[("A", [1, 2, 3])]⟩ 5 ≠ .error (.insufficientData 6 3) := by
  constructor
  · norm_num [computeMomentum, lastRowRecords, momSeries, Except.map, List.getLast?]
  · rw [show computeMomentum ⟨[("A", [1, 2, 3])]⟩ 5 = .error .indexError by
      norm_num [computeMomentum, lastRowRecords, momSeries, Except.map, List.getLast?]]
    intro h
    cases h

/-- C3 (amended): for every rectangular panel with at least one column
and fewer than `lookback + 1` timestamps, `computeMomentum` fails with
the index-out-of-range condition raised by `iloc[-1]` on the emptied
windowed frame; no `InsufficientDataError` exists in the code. -/
theorem computeMomentum_insufficient_index_error (p : PricePanel) (lookback n : ℕ)
    (hcols : p.cols ≠ []) (hrect : ∀ c ∈ p.cols, c.2.length = n)
    (hn : n < lookback + 1) :
    computeMomentum p lookback = .error .indexError := by
  cases hp : p.cols with
  | nil => exact absurd hp hcols
  | cons c cs =>
    have hclen : c.2.length = n := hrect c (by rw [hp]; simp)
    have hlen0 : (momSeries lookback c.2).length = 0 := by
      rw [momSeries_length, hclen]; omega
    have hempty : (momSeries lookback c.2).getLast? = none := by
      rw [List.length_eq_zero.mp hlen0]; rfl
    rw [computeMomentum, hp, lastRowRecords_error_head lookback c cs hempty]
    rfl

/-- C3 witness: the amended behaviour at the 3-timestamp panel with
lookback 5. -/
theorem computeMomentum_insufficient_index_error_witness :
    (PricePanel.mk [("A", [1, 2, 3])]).cols ≠ [] ∧
    (∀ c ∈ (PricePanel.mk [("A", [1, 2, 3])]).cols, c.2.length = 3) ∧ 3 < 5 + 1 ∧
    computeMomentum ⟨[("A", [1, 2, 3])]⟩ 5 = .error .indexError :=
  ⟨by simp, by intro c hc; simp at hc; subst hc; rfl, by norm_num,
    computeMomentum_insufficient_index_error _ 5 3 (by simp)
      (by intro c hc; simp at hc; subst hc; rfl) (by norm_num)⟩

/-- C8: on a rectangular panel with `n ≥ lookback + 1` rows, all prices
nonzero (positive), and `k` instrument columns, `computeMomentum`
returns exactly `k` records, each score the well-defined finite rational
`pt / p0 - 1` with nonzero denominator, and the score sequence
non-increasing. -/
theorem computeMomentum_shape_spec (p : PricePanel) (lookback n : ℕ)
    (hrect : ∀ c ∈ p.cols, c.2.length = n) (hn : lookback + 1 ≤ n)
    (hpos : ∀ c ∈ p.cols, ∀ x ∈ c.2, 0 < x) :
    ∃ t, computeMomentum p lookback = .ok t ∧
      t.length = p.cols.length ∧
      List.Pairwise (fun a b => b.score ≤ a.score) t ∧
      ∀ r ∈ t, ∃ c ∈ p.cols, ∃ pt p0 : ℚ,
        c.2[n - 1]? = some pt ∧ c.2[n - 1 - lookback]? = some p0 ∧
        p0 ≠ 0 ∧ r.score = pt / p0 - 1 := by
  obtain ⟨rs, hrs, hmap, _, hbwd⟩ :=
    lastRowRecords_ok lookback p.cols (momSeries_isSome p lookback n hrect hn)
  refine ⟨sortDescByScore rs, by rw [computeMomentum, hrs]; rfl, ?_,
    sortDescByScore_sorted rs, ?_⟩
  · rw [sortDescByScore_length]
    have hlen := congrArg List.length hmap
    simpa using hlen
  · intro r hr
    have hrrs : r ∈ rs := (sortDescByScore_perm rs).mem_iff.mp hr
    obtain ⟨c, hc, _, hscore⟩ := hbwd r hrrs
    have hlen := hrect c hc
    obtain ⟨pt, hpt⟩ := getElem_exists_of_lt (show n - 1 < c.2.length by omega)
    obtain ⟨p0, hp0⟩ := getElem_exists_of_lt (show n - 1 - lookback < c.2.length by omega)
    have hlast := momSeries_getLast lookback n c.2 hlen hn pt p0 hpt hp0
    have hp0pos : 0 < p0 := hpos c hc p0 (List.getElem?_mem hp0)
    refine ⟨c, hc, pt, p0, hpt, hp0, ne_of_gt hp0pos, ?_⟩
    rw [hscore] at hlast
    exact Option.some_inj.mp hlast

/-- C9: `computeMomentum` is a pure function of its two arguments —
identical panel and identical lookback give bit-identical output.  (In
the embedding `calculate_momentum` reads nothing but its arguments, so
purity holds by construction.) -/
theorem computeMomentum_deterministic (p₁ p₂ : PricePanel) (k₁ k₂ : ℕ)
    (hp : p₁ = p₂) (hk : k₁ = k₂) :
    computeMomentum p₁ k₁ = computeMomentum p₂ k₂ := by
  rw [hp, hk]

/-- C9 witness: two identical calls at the scenario panel agree. -/
theorem computeMomentum_deterministic_witness :
    (PricePanel.mk [("A", [100, 110, 121])] = PricePanel.mk [("A", [100, 110, 121])]) ∧
    (2 = 2) ∧
    computeMomentum ⟨[("A", [100, 110, 121])]⟩ 2 =
      computeMomentum ⟨[("A", [100, 110, 121])]⟩ 2 :=
  ⟨rfl, rfl, computeMomentum_deterministic _ _ 2 2 rfl rfl⟩

/-- C8 witness: the shape specification at the scenario panel. -/
theorem computeMomentum_shape_spec_witness :
    (∀ c ∈ (PricePanel.mk [("A", [100, 110, 121]), ("B", [100, 100, 100])]).cols,
      c.2.length = 3) ∧ 2 + 1 ≤ 3 ∧
    (∀ c ∈ (PricePanel.mk [("A", [100, 110, 121]), ("B", [100, 100, 100])]).cols,
      ∀ x ∈ c.2, 0 < x) ∧
    (∃ t, computeMomentum ⟨[("A", [100, 110, 121]), ("B", [100, 100, 100])]⟩ 2 = .ok t ∧
      t.length = (PricePanel.mk [("A", [100, 110, 121]), ("B", [100, 100, 100])]).cols.length ∧
      List.Pairwise (fun a b => b.score ≤ a.score) t ∧
      ∀ r ∈ t, ∃ c ∈ (PricePanel.mk [("A", [100, 110, 121]), ("B", [100, 100, 100])]).cols,
        ∃ pt p0 : ℚ, c.2[3 - 1]? = some pt ∧ c.2[3 - 1 - 2]? = some p0 ∧
          p0 ≠ 0 ∧ r.score = pt / p0 - 1) :=
  ⟨by intro c hc; simp at hc; rcases hc with rfl | rfl <;> rfl, by norm_num,
    by
      intro c hc
      simp at hc
      rcases hc with rfl | rfl <;>
        · intro x hx
          simp at hx
          rcases hx with rfl | rfl | rfl <;> norm_num,
    computeMomentum_shape_spec _ 2 3
      (by intro c hc; simp at hc; rcases hc with rfl | rfl <;> rfl) (by norm_num)
      (by
        intro c hc
        simp at hc
        rcases hc with rfl | rfl <;>
          · intro x hx
            simp at hx
            rcases hx with rfl | rfl | rfl <;> norm_num)⟩

/-- C2 counterexample: for instrument C with prices [50, 55, 49.5] the
cumulative series produced by `computeBacktest` is [1.10, 0.99] — the
1.0 seed row is not part of the output, so the first cumulative value is
1.10, not 1.0, and the series is not [1.0, 1.10, 0.99]. -/
theorem computeBacktest_seed_cex :
    computeBacktest ⟨[("C", [50, 55, 99/2])]⟩ ["C"] = .ok [("C", [11/10, 99/100])] ∧
    (11 : ℚ)/10 ≠ 1 ∧
    ([(11 : ℚ)/10, 99/100] ≠ [1, 11/10, 99/100]) := by
  refine ⟨?_, by norm_num, ?_⟩
  · norm_num [computeBacktest, project, dailyChanges, cumReturns, Except.map,
      List.scanl, List.filter, List.filterMap, List.find?]
  · intro h
    rw [List.cons.injEq] at h
    norm_num at h

/-- C2 (amended): for every panel and instrument subset fully present,
`computeBacktest` returns per instrument the series of running products
of (1 + daily fractional change) over the return-bearing timestamps:
entry `i` is the product of the first `i+1` growth factors, and in
particular the first value equals 1 + (first daily change) — the 1.0
seed is conceptual only and is not emitted. -/
theorem computeBacktest_cumulative_spec (p : PricePanel)
    (instruments : List Instrument)
    (h : ∀ i ∈ instruments, ∃ c ∈ p.cols, c.1 = i) :
    ∃ cols, project p instruments = .ok cols ∧
      computeBacktest p instruments =
        .ok (cols.map fun c => (c.1, cumReturns (dailyChanges c.2))) ∧
      ∀ c ∈ cols,
        (cumReturns (dailyChanges c.2)).length = (dailyChanges c.2).length ∧
        (∀ i < (dailyChanges c.2).length,
          (cumReturns (dailyChanges c.2))[i]? =
            some ((((dailyChanges c.2).take (i + 1)).map fun ch => 1 + ch).prod)) ∧
        ∀ ch0 : ℚ, (dailyChanges c.2)[0]? = some ch0 →
          (cumReturns (dailyChanges c.2))[0]? = some (1 + ch0) := by
  refine ⟨_, project_ok p instruments h, ?_, ?_⟩
  · rw [computeBacktest, project_ok p instruments h]
    rfl
  · intro c _
    refine ⟨cumReturns_length _, fun i hi => cumReturns_getElem _ i hi, ?_⟩
    intro ch0 h0
    cases hd : dailyChanges c.2 with
    | nil => rw [hd] at h0; simp at h0
    | cons a tail =>
      rw [hd] at h0
      simp only [List.getElem?_cons_zero, Option.some_inj] at h0
      rw [cumReturns_getElem _ 0 (by simp)]
      simp [h0]

/-- C2 witness: instrument C with prices [50, 55, 49.5]; the daily
changes are [1/10, -1/10] and the cumulative series is [11/10, 99/100],
whose first value is 1 + 1/10. -/
theorem computeBacktest_cumulative_spec_witness :
    (∀ i ∈ (["C"] : List Instrument),
      ∃ c ∈ (PricePanel.mk [("C", [50, 55, 99/2])]).cols, c.1 = i) ∧
    (∃ cols, project ⟨[("C", [50, 55, 99/2])]⟩ ["C"] = .ok cols ∧
      computeBacktest ⟨[("C", [50, 55, 99/2])]⟩ ["C"] =
        .ok (cols.map fun c => (c.1, cumReturns (dailyChanges c.2))) ∧
      ∀ c ∈ cols,
        (cumReturns (dailyChanges c.2)).length = (dailyChanges c.2).length ∧
        (∀ i < (dailyChanges c.2).length,
          (cumReturns (dailyChanges c.2))[i]? =
            some ((((dailyChanges c.2).take (i + 1)).map fun ch => 1 + ch).prod)) ∧
        ∀ ch0 : ℚ, (dailyChanges c.2)[0]? = some ch0 →
          (cumReturns (dailyChanges c.2))[0]? = some (1 + ch0)) ∧
    dailyChanges [50, 55, 99/2] = [1/10, -1/10] ∧
    cumReturns [1/10, -1/10] = [11/10, 99/100] :=
  ⟨by intro i hi; simp at hi; subst hi; exact ⟨("C", [50, 55, 99/2]), by simp, rfl⟩,
    computeBacktest_cumulative_spec _ ["C"]
      (by intro i hi; simp at hi; subst hi; exact ⟨("C", [50, 55, 99/2]), by simp, rfl⟩),
    by norm_num [dailyChanges],
    by norm_num [cumReturns, List.scanl]⟩

/-- C5: `selectTopN` returns exactly `min n (length of table)` records,
as an initial segment of the table (so in table order), with no error;
when `n` exceeds the table length it clamps. -/
theorem selectTopN_clamps (t : List MomentumRecord) (n : ℕ) (_hn : 0 < n) :
    (selectTopN t n).length = min n t.length ∧ selectTopN t n <+: t :=
  ⟨List.length_take n t, ⟨t.drop n, List.take_append_drop n t⟩⟩

/-- C5 witness: `selectTopN` with n = 15 on a 10-record table returns
all 10 records. -/
theorem selectTopN_clamps_witness :
    0 < 15 ∧
    ((selectTopN tenRecordTable 15).length = min 15 tenRecordTable.length ∧
      selectTopN tenRecordTable 15 <+: tenRecordTable) ∧
    (selectTopN tenRecordTable 15).length = 10 :=
  ⟨by norm_num, selectTopN_clamps tenRecordTable 15 (by norm_num),
    by rfl⟩

/-- C6 counterexample: on a panel with a single timestamp,
`computeBacktest` returns an ordinary `ok` result holding an empty
series — not an error, and not any explicit insufficient-data signal a
caller could distinguish from a valid empty series. -/
theorem computeBacktest_short_panel_cex :
    computeBacktest ⟨[("A", [100])]⟩ ["A"] = .ok [("A", ([] : List ℚ))] := by
  norm_num [computeBacktest, project, dailyChanges, cumReturns, Except.map,
    List.filter, List.filterMap, List.find?, List.scanl]

/-- C6 (amended): for every rectangular panel with at most one timestamp
and every fully-present instrument subset, `computeBacktest` returns a
plain `ok` result mapping each requested instrument to the empty series;
no explicit insufficient-data signal is produced, so the caller cannot
tell "no returns could be computed" apart from an empty-but-valid
series. -/
theorem computeBacktest_short_panel_empty (p : PricePanel)
    (instruments : List Instrument) (n : ℕ)
    (hrect : ∀ c ∈ p.cols, c.2.length = n) (hn : n ≤ 1)
    (h : ∀ i ∈ instruments, ∃ c ∈ p.cols, c.1 = i) :
    ∃ cols, project p instruments = .ok cols ∧
      computeBacktest p instruments =
        .ok (cols.map fun c => (c.1, ([] : List ℚ))) := by
  refine ⟨_, project_ok p instruments h, ?_⟩
  rw [computeBacktest, project_ok p instruments h]
  simp only [Except.map]
  congr 1
  apply List.map_congr_left
  intro c hc
  obtain ⟨_, hspec⟩ := proj_filterMap_spec p instruments h
  obtain ⟨pc, hpc, _, hpc2⟩ := hspec c hc
  have hlen : c.2.length = n := by rw [← hpc2]; exact hrect pc hpc
  have hdc : dailyChanges c.2 = [] := by
    apply List.length_eq_zero.mp
    unfold dailyChanges
    rw [List.length_zipWith, List.length_drop, hlen]
    omega
  rw [hdc]
  rfl

/-- C6 witness: the amended behaviour at the one-timestamp panel. -/
theorem computeBacktest_short_panel_empty_witness :
    (∀ c ∈ (PricePanel.mk [("A", [100])]).cols, c.2.length = 1) ∧ 1 ≤ 1 ∧
    (∀ i ∈ (["A"] : List Instrument),
      ∃ c ∈ (PricePanel.mk [("A", [100])]).cols, c.1 = i) ∧
    (∃ cols, project ⟨[("A", [100])]⟩ ["A"] = .ok cols ∧
      computeBacktest ⟨[("A", [100])]⟩ ["A"] =
        .ok (cols.map fun c => (c.1, ([] : List ℚ)))) :=
  ⟨by intro c hc; simp at hc; subst hc; rfl, le_refl 1,
    by intro i hi; simp at hi; subst hi; exact ⟨("A", [100]), by simp, rfl⟩,
    computeBacktest_short_panel_empty _ ["A"] 1
      (by intro c hc; simp at hc; subst hc; rfl) (le_refl 1)
      (by intro i hi; simp at hi; subst hi; exact ⟨("A", [100]), by simp, rfl⟩)⟩

/-- C7: whenever some requested instrument is not a panel column,
`computeBacktest` fails with the projection's key error naming exactly
the missing identifiers (the `UnknownInstrumentError` of the spec), and
with no other error kind. -/
theorem computeBacktest_unknown_instrument (p : PricePanel)
    (instruments : List Instrument) (i0 : Instrument) (hi0 : i0 ∈ instruments)
    (h : ∀ c ∈ p.cols, c.1 ≠ i0) :
    ∃ missing, computeBacktest p instruments = .error (.keyError missing) ∧
      i0 ∈ missing ∧
      (∀ m ∈ missing, m ∈ instruments ∧ ∀ c ∈ p.cols, c.1 ≠ m) ∧
      (∀ i ∈ instruments, (∀ c ∈ p.cols, c.1 ≠ i) → i ∈ missing) := by
  have hmem : ∀ i, (i ∈ instruments.filter fun j => !(p.cols.any fun c => c.1 == j)) ↔
      (i ∈ instruments ∧ ∀ c ∈ p.cols, c.1 ≠ i) := by
    intro i
    simp [List.mem_filter, List.any_eq_true]
  have hne : (instruments.filter fun j => !(p.cols.any fun c => c.1 == j)) ≠ [] := by
    intro hnil
    have hmem0 := (hmem i0).mpr ⟨hi0, h⟩
    rw [hnil] at hmem0
    simp at hmem0
  refine ⟨_, ?_, (hmem i0).mpr ⟨hi0, h⟩, fun m hm => (hmem m).mp hm,
    fun i hi hno => (hmem i).mpr ⟨hi, hno⟩⟩
  rw [computeBacktest, project_error p instruments hne]
  rfl

/-- C7 witness: requesting ["A", "X"] against a panel whose only column
is A yields the key error naming X. -/
theorem computeBacktest_unknown_instrument_witness :
    ("X" ∈ (["A", "X"] : List Instrument)) ∧
    (∀ c ∈ (PricePanel.mk [("A", [1, 2])]).cols, c.1 ≠ "X") ∧
    (∃ missing, computeBacktest ⟨[("A", [1, 2])]⟩ ["A", "X"] =
        .error (.keyError missing) ∧
      "X" ∈ missing ∧
      (∀ m ∈ missing, m ∈ (["A", "X"] : List Instrument) ∧
        ∀ c ∈ (PricePanel.mk [("A", [1, 2])]).cols, c.1 ≠ m) ∧
      (∀ i ∈ (["A", "X"] : List Instrument),
        (∀ c ∈ (PricePanel.mk [("A", [1, 2])]).cols, c.1 ≠ i) → i ∈ missing)) :=
  ⟨by simp, by intro c hc; simp at hc; subst hc; simp,
    computeBacktest_unknown_instrument _ ["A", "X"] "X" (by simp)
      (by intro c hc; simp at hc; subst hc; simp)⟩

/-- C10: in the first script variant, when the panel's timestamp count
equals `days_in_period` exactly, the sufficiency check
`len(historical_data) >= days_in_period` passes, yet
`pct_change(days_in_period)` leaves the final row entirely undefined, so
the displayed momentum table holds a NaN score for every instrument —
no error or warning. -/
theorem momentumDisplayV1_boundary_nan (p : PricePanel) (days : ℕ)
    (_hd : 0 < days) (hcols : p.cols ≠ [])
    (hrect : ∀ c ∈ p.cols, c.2.length = days) :
    momentumDisplayV1 p days = some (p.cols.map fun c => (c.1, (none : Option ℚ))) := by
  have hrows : p.numRows = days := by
    cases hp : p.cols with
    | nil => exact absurd hp hcols
    | cons c cs =>
      have hc := hrect c (by rw [hp]; simp)
      simp [PricePanel.numRows, hp, hc]
  rw [momentumDisplayV1, if_pos (le_of_eq hrows.symm)]
  congr 1
  apply List.map_congr_left
  intro c hc
  have hlen := hrect c hc
  have hnone : lastPctChange days c.2 = none := by
    rw [lastPctChange, if_neg (by rw [hlen]; omega)]
  rw [hnone]

/-- C10 witness: a one-instrument panel with exactly `days = 1`
timestamps passes the guard and displays a NaN score. -/
theorem momentumDisplayV1_boundary_nan_witness :
    0 < 1 ∧ (PricePanel.mk [("A", [100])]).cols ≠ [] ∧
    (∀ c ∈ (PricePanel.mk [("A", [100])]).cols, c.2.length = 1) ∧
    momentumDisplayV1 ⟨[("A", [100])]⟩ 1 = some [("A", (none : Option ℚ))] :=
  ⟨Nat.one_pos, by simp, by intro c hc; simp at hc; subst hc; rfl,
    momentumDisplayV1_boundary_nan _ 1 Nat.one_pos (by simp)
      (by intro c hc; simp at hc; subst hc; rfl)⟩

end Momentum
